import Mathlib

/-!
A shallow embedding of three source files of the bb-storage repository:

* `pkg/blobstore/cloud_blob_access.go` — the cloud-bucket backed
  `BlobAccess` (`Get`, `Put`, `FindMissing`, `getKey`);
* the CAS gRPC server (`contentAddressableStorageServer` with
  `FindMissingBlobs` and `BatchUpdateBlobs`);
* the `BlobAccess`-backed `ContentAddressableStorage`
  (`getMessage`, `GetFile`, `PutFile`, `newSectionReadCloser`).

External collaborators (the gocloud bucket, the backing `BlobAccess`,
digest parsing, protobuf decoding) are embedded as oracle functions; the
theorems quantify over them.
-/

namespace BBStorage

/-- Bytes of a blob, one natural number per byte. -/
abbrev Bytes := List Nat

/-- Decidable equality of oracle results, used by the witness proofs. -/
instance instDecEqExcept {E A : Type} [DecidableEq E] [DecidableEq A] :
    DecidableEq (Except E A) := fun a b =>
  match a, b with
  | .error e1, .error e2 =>
      if h : e1 = e2 then .isTrue (by rw [h]) else .isFalse (by simp [h])
  | .ok a1, .ok a2 =>
      if h : a1 = a2 then .isTrue (by rw [h]) else .isFalse (by simp [h])
  | .error _, .ok _ => .isFalse (by simp)
  | .ok _, .error _ => .isFalse (by simp)

/-- gRPC status codes used by the embedded code
(google.golang.org/grpc/codes). -/
inductive Code where
  | ok
  | cancelled
  | unknown
  | invalidArgument
  | notFound
  | alreadyExists
  | internal
  | unimplemented
  deriving DecidableEq

/-- Cloud-provider error codes (gocloud.dev/gcerrors). -/
inductive GCode where
  | notFound
  | permissionDenied
  | unknown
  deriving DecidableEq

/-- A native error of the cloud SDK, classified by a gcerrors code. -/
structure CloudErr where
  gcode : GCode
  msg : String
  deriving DecidableEq

/-- An error value flowing through the embedded code: either a native
cloud-SDK error or a gRPC status error. -/
inductive BErr where
  | native (e : CloudErr)
  | grpc (code : Code) (msg : String)
  deriving DecidableEq

/-- A digest: instance name, hex hash and declared size in bytes
(pkg/digest, spec section 3). -/
structure Digest where
  instanceName : String
  hash : String
  sizeBytes : Nat
  deriving DecidableEq

/-- The StorageType interface as consumed by cloudBlobAccess: only its
GetDigestKey method is reached by the embedded code, so it is carried as
an abstract function. -/
structure StorageType where
  getDigestKey : Digest → String

/-- The fields of the cloudBlobAccess structure other than the bucket
handle; the bucket itself is passed to each operation as oracles. -/
structure CloudBlobAccess where
  keyPrefix : String
  storageType : StorageType

/-- The committed objects of a bucket: key to contents. -/
abbrev ObjMap := String → Option Bytes

/-- bucket.Delete: removes one key from the bucket's objects. -/
def bucketDelete (objects : ObjMap) (key : String) : ObjMap :=
  fun k => if k = key then none else objects k

/-- Modelled from the spec: the buffer package (pkg/blobstore/buffer) is
not among the shown sources. Per spec sections 3 and 4.9 a Buffer either
embeds an error (buffer.NewBufferFromError) so that the error surfaces
only on consumption, or carries the digest it claims to represent, the
bytes of its reader and a Reparable repair hook invoked on integrity
failure (storageType.NewBufferFromReader with buffer.Reparable). The
repair hook is embedded as the bucket-object transformation it performs. -/
inductive Buffer where
  | fromError (e : BErr)
  | fromReader (d : Digest) (contents : Bytes) (repair : ObjMap → ObjMap)

/-- The repair action carried by a Buffer; an error buffer carries none
and leaves the bucket unchanged. -/
def Buffer.repairOf : Buffer → ObjMap → ObjMap
  | .fromError _, objects => objects
  | .fromReader _ _ repair, objects => repair objects

/-- cloudBlobAccess.getKey (cloud_blob_access.go, lines 84-86). -/
def cloudGetKey (ba : CloudBlobAccess) (d : Digest) : String :=
  ba.keyPrefix ++ ba.storageType.getDigestKey d

/-- cloudBlobAccess.Get (cloud_blob_access.go, lines 33-48). The bucket's
NewReader is an oracle from key to either a native error or the object's
contents. A native error whose gcerrors code is NotFound is rewritten to
a gRPC NotFound status carrying the same message; any other error is
embedded unchanged. On success the buffer carries a Reparable hook that
deletes the same key from the bucket. -/
def cloudGet (ba : CloudBlobAccess) (newReader : String → Except CloudErr Bytes)
    (d : Digest) : Buffer :=
  let key := cloudGetKey ba d
  match newReader key with
  | .error err =>
      .fromError
        (if err.gcode = GCode.notFound then .grpc Code.notFound err.msg
         else .native err)
  | .ok result =>
      .fromReader d result (fun objects => bucketDelete objects key)

/-- One operation that cloudBlobAccess.Put performs against the bucket
writer and its cancellable context, in the order the code performs them. -/
inductive PutEvent where
  | wrote (bs : Bytes)
  | cancel
  | close
  deriving DecidableEq

/-- State of the gocloud bucket writer. Per the gocloud.dev blob.Writer
contract a Close that happens after the writer's context was cancelled
aborts the upload and commits nothing, while a Close on a live context
commits the buffered bytes as the object. -/
structure WriterRun where
  cancelled : Bool
  closed : Bool
  buffered : Bytes
  committedObject : Option Bytes

/-- One step of the bucket-writer state machine. -/
def writerStep (s : WriterRun) : PutEvent → WriterRun
  | .wrote bs => { s with buffered := s.buffered ++ bs }
  | .cancel => { s with cancelled := true }
  | .close =>
      if s.closed then s
      else { s with closed := true,
                    committedObject :=
                      if s.cancelled then none else some s.buffered }

/-- Run a trace of writer operations from the initial writer state. -/
def runWriter (events : List PutEvent) : WriterRun :=
  events.foldl writerStep ⟨false, false, [], none⟩

/-- cloudBlobAccess.Put (cloud_blob_access.go, lines 50-70), as the key it
writes under, the ordered trace of writer operations it performs, and the
error it returns. newWriterErr is the outcome of bucket.NewWriter;
copyFail, when set, is the number of bytes transferred before io.Copy
failed, together with its error. The code cancels the context before
closing the writer on a copy failure, and closes before cancelling on
success. -/
def cloudPut (ba : CloudBlobAccess) (d : Digest) (data : Bytes)
    (newWriterErr : Option BErr) (copyFail : Option (Nat × BErr)) :
    String × List PutEvent × Option BErr :=
  let key := cloudGetKey ba d
  match newWriterErr with
  | some e => (key, [.cancel], some e)
  | none =>
      match copyFail with
      | some (n, e) => (key, [.wrote (data.take n), .cancel, .close], some e)
      | none => (key, [.wrote data, .close, .cancel], none)

/-- The loop of cloudBlobAccess.FindMissing (cloud_blob_access.go, lines
72-82): missing accumulates, in order, the digests whose key the bucket
reports as not existing; a failing existence check aborts the whole call
with digest.EmptySet and that error. The digest set is embedded as the
list of its items in iteration order. -/
def findMissingLoop (ba : CloudBlobAccess) (ex : String → Except BErr Bool)
    (missing : List Digest) : List Digest → List Digest × Option BErr
  | [] => (missing, none)
  | blobDigest :: rest =>
      match ex (cloudGetKey ba blobDigest) with
      | .error e => ([], some e)
      | .ok true => findMissingLoop ba ex missing rest
      | .ok false => findMissingLoop ba ex (missing ++ [blobDigest]) rest

/-- cloudBlobAccess.FindMissing (cloud_blob_access.go, lines 72-82). The
bucket's Exists is an oracle from key to a boolean or an error. -/
def cloudFindMissing (ba : CloudBlobAccess) (ex : String → Except BErr Bool)
    (digests : List Digest) : List Digest × Option BErr :=
  findMissingLoop ba ex [] digests

/-- Whether an existence check came back as a usable answer that the key
is absent (the condition under which the loop adds the digest). -/
def isOkFalse (r : Except BErr Bool) : Bool :=
  match r with
  | .ok false => true
  | _ => false

/-- Whether an existence check failed. -/
def isErrorResult (r : Except BErr Bool) : Bool :=
  match r with
  | .error _ => true
  | _ => false

/-- A wire digest (remoteexecution.Digest): hex hash and size, no
instance name. -/
structure PartialDigest where
  hash : String
  sizeBytes : Nat
  deriving DecidableEq

/-- Digest.GetPartialDigest: the projection of a digest onto its wire
form, stripping the instance name (spec section 3). -/
def Digest.getPartialDigest (d : Digest) : PartialDigest :=
  { hash := d.hash, sizeBytes := d.sizeBytes }

/-- remoteexecution.FindMissingBlobsRequest. -/
structure FindMissingBlobsRequest where
  instanceName : String
  blobDigests : List PartialDigest

/-- remoteexecution.FindMissingBlobsResponse. -/
structure FindMissingBlobsResponse where
  missingBlobDigests : List PartialDigest
  deriving DecidableEq

/-- The parse-and-collect loop of
contentAddressableStorageServer.FindMissingBlobs: the request's wire
digests are parsed in order against the request's instance name and
collected into the set builder; the first parse failure fails the whole
call. digest.NewDigestFromPartialDigest is an oracle. -/
def collectDigests (parse : String → PartialDigest → Except BErr Digest)
    (instanceName : String) : List PartialDigest → Except BErr (List Digest)
  | [] => .ok []
  | pd :: rest =>
      match parse instanceName pd with
      | .error e => .error e
      | .ok d =>
          match collectDigests parse instanceName rest with
          | .error e => .error e
          | .ok ds => .ok (d :: ds)

/-- contentAddressableStorageServer.FindMissingBlobs (the unnamed cas
server source, lines 133-153). The backing BlobAccess.FindMissing is an
oracle from the collected digest set to the missing set or an error. -/
def findMissingBlobs (parse : String → PartialDigest → Except BErr Digest)
    (findMissing : List Digest → Except BErr (List Digest))
    (req : FindMissingBlobsRequest) : Except BErr FindMissingBlobsResponse :=
  match collectDigests parse req.instanceName req.blobDigests with
  | .error e => .error e
  | .ok inDigests =>
      match findMissing inDigests with
      | .error e => .error e
      | .ok outDigests =>
          .ok { missingBlobDigests := outDigests.map Digest.getPartialDigest }

/-- One element of a remoteexecution.BatchUpdateBlobsRequest. -/
structure BatchUpdateBlobsRequest_Request where
  digest : PartialDigest
  data : Bytes
  deriving DecidableEq

/-- remoteexecution.BatchUpdateBlobsRequest. -/
structure BatchUpdateBlobsRequest where
  instanceName : String
  requests : List BatchUpdateBlobsRequest_Request

/-- A google.rpc.Status value: code and message. -/
structure Status where
  code : Code
  message : String
  deriving DecidableEq

/-- status.Convert(err).Proto(): a nil error becomes the OK status, a
gRPC status error keeps its code and message, and a native error maps to
the Unknown code. -/
def statusConvert : Option BErr → Status
  | none => { code := Code.ok, message := "" }
  | some (.grpc c m) => { code := c, message := m }
  | some (.native e) => { code := Code.unknown, message := e.msg }

/-- One element of a remoteexecution.BatchUpdateBlobsResponse. -/
structure BatchUpdateBlobsResponse_Response where
  digest : PartialDigest
  status : Status
  deriving DecidableEq

/-- remoteexecution.BatchUpdateBlobsResponse. -/
structure BatchUpdateBlobsResponse where
  responses : List BatchUpdateBlobsResponse_Response
  deriving DecidableEq

/-- The outcome of one BatchUpdateBlobs element: parse the element's
wire digest against the request's instance name and, on success, Put the
element's data under the parsed digest. parse and put are oracles for
digest.NewDigestFromPartialDigest and the backing BlobAccess.Put. -/
def elementOutcome (parse : String → PartialDigest → Except BErr Digest)
    (put : Digest → Bytes → Option BErr) (instanceName : String)
    (request : BatchUpdateBlobsRequest_Request) : Option BErr :=
  match parse instanceName request.digest with
  | .error e => some e
  | .ok d => put d request.data

/-- The work of one BatchUpdateBlobs goroutine: the element's response
carries the element's wire digest and the converted status of its
outcome. -/
def batchUpdateOne (parse : String → PartialDigest → Except BErr Digest)
    (put : Digest → Bytes → Option BErr) (instanceName : String)
    (request : BatchUpdateBlobsRequest_Request) :
    BatchUpdateBlobsResponse_Response :=
  { digest := request.digest
    status := statusConvert (elementOutcome parse put instanceName request) }

/-- contentAddressableStorageServer.BatchUpdateBlobs (the unnamed cas
server source, lines 159-184): one independent Put per request element,
with the per-element results recombined over a channel into a single
response; the RPC itself always succeeds. The nondeterministic channel
order is embedded as the request order, one admissible completion
order. -/
def batchUpdateBlobs (parse : String → PartialDigest → Except BErr Digest)
    (put : Digest → Bytes → Option BErr) (req : BatchUpdateBlobsRequest) :
    Except BErr BatchUpdateBlobsResponse :=
  .ok { responses := req.requests.map (batchUpdateOne parse put req.instanceName) }

/-- blobAccessContentAddressableStorage.getMessage (the unnamed cas
helper source, lines 37-54), generic in the decoded message type M. The
backing blobAccess.Get followed by ReadAll is one oracle from digest to
the blob's bytes or an error; proto.Unmarshal is the oracle unmarshal.
A digest whose declared size exceeds maximumMessageSizeBytes is refused
with InvalidArgument before the blob is read. -/
def getMessage {M : Type} (maximumMessageSizeBytes : Nat)
    (get : Digest → Except BErr Bytes) (unmarshal : Bytes → Except BErr M)
    (d : Digest) : Except BErr M :=
  if d.sizeBytes > maximumMessageSizeBytes then
    .error (.grpc Code.invalidArgument "Refusing to unmarshal message")
  else
    match get d with
    | .error e => .error e
    | .ok data => unmarshal data

/-- A file held by a directory: its permission mode and contents. -/
structure DirFile where
  mode : Nat
  content : Bytes
  deriving DecidableEq

/-- Modelled from the spec: the pkg/filesystem Directory collaborator is
not among the shown sources (the spec keeps filesystem helpers out of
scope). A directory maps file names to files; OpenAppend with
CreateExcl(mode) creates the named file exclusively, empty, with the
given mode, and Remove deletes the named file. -/
abbrev Dir := String → Option DirFile

/-- directory.OpenAppend(name, CreateExcl(mode)) after a successful
create: the named file exists, empty, with the given mode. -/
def dirInsert (dir : Dir) (name : String) (file : DirFile) : Dir :=
  fun k => if k = name then some file else dir k

/-- directory.Remove(name). -/
def dirRemove (dir : Dir) (name : String) : Dir :=
  fun k => if k = name then none else dir k

/-- blobAccessContentAddressableStorage.GetFile (the unnamed cas helper
source, lines 88-112): create the destination file exclusively with mode
0444 (0555 when executable), fetch the blob, copy it into the file; only
a copy failure removes the created file before the error is returned.
getResult is the outcome of blobAccess.Get; copyFail, when set, is the
number of bytes appended before io.Copy failed, together with its error.
Returns the final directory state and the error GetFile returns. -/
def getFile (dir : Dir) (name : String) (isExecutable : Bool)
    (getResult : Except BErr Bytes) (copyFail : Option (Nat × BErr)) :
    Dir × Option BErr :=
  let mode : Nat := if isExecutable then 0o555 else 0o444
  match dir name with
  | some _ => (dir, some (.grpc Code.alreadyExists "file exists"))
  | none =>
      let dirCreated := dirInsert dir name { mode := mode, content := [] }
      match getResult with
      | .error e => (dirCreated, some e)
      | .ok data =>
          match copyFail with
          | some (n, e) =>
              (dirRemove
                (dirInsert dirCreated name { mode := mode, content := data.take n })
                name,
               some e)
          | none =>
              (dirInsert dirCreated name { mode := mode, content := data }, none)

/-- io.NewSectionReader(r, off, n) read to EOF: the bytes of the reader's
current content from offset off, at most n of them (also the body of
newSectionReadCloser, the unnamed cas helper source, lines 177-185). -/
def sectionRead (content : Bytes) (off n : Nat) : Bytes :=
  (content.drop off).take n

/-- The n argument io.Copy passes when PutFile hashes the file:
math.MaxInt64. -/
def maxInt64 : Nat := 2 ^ 63 - 1

/-- blobAccessContentAddressableStorage.PutFile (the unnamed cas helper
source, lines 144-171). Modelled from the spec where the sources stop:
util.Digest's stateful generator (pkg/util is not among the shown
sources) hashes exactly the bytes written to it, and Sum yields a digest
whose declared size is that byte count; hashFn is the digest function
and the parent digest contributes the instance name. The file holds
fileAtDigestTime when the digest pass reads it through
io.NewSectionReader(file, 0, math.MaxInt64); appended is what other
writers append before the upload pass re-reads the file through
newSectionReadCloser(file, 0, sizeBytes). put is the backing
BlobAccess.Put, receiving the digest and the uploaded bytes; openErr is
the outcome of directory.OpenRead. -/
def putFile (hashFn : Bytes → String) (instanceName : String)
    (openErr : Option BErr) (fileAtDigestTime appended : Bytes)
    (put : Digest → Bytes → Option BErr) : Except BErr (Digest × Bytes) :=
  match openErr with
  | some e => .error e
  | none =>
      let hashed := sectionRead fileAtDigestTime 0 maxInt64
      let sizeBytes := hashed.length
      let d : Digest :=
        { instanceName := instanceName, hash := hashFn hashed, sizeBytes := sizeBytes }
      let uploaded := sectionRead (fileAtDigestTime ++ appended) 0 sizeBytes
      match put d uploaded with
      | some e => .error e
      | none => .ok (d, uploaded)

/-! Concrete fixtures used by the witness theorems. -/

/-- The CAS storage type of the spec: digest key hash_hex "-" sizeBytes. -/
def casType : StorageType :=
  { getDigestKey := fun d => d.hash ++ "-" ++ toString d.sizeBytes }

/-- A cloudBlobAccess over the CAS storage type with a sample key
prefix. -/
def baW : CloudBlobAccess := { keyPrefix := "bazel_cas/", storageType := casType }

/-- A sample digest whose CAS key under baW is "bazel_cas/aa-1". -/
def dW1 : Digest := { instanceName := "", hash := "aa", sizeBytes := 1 }

/-- A sample digest whose CAS key under baW is "bazel_cas/bb-2". -/
def dW2 : Digest := { instanceName := "", hash := "bb", sizeBytes := 2 }

/-- A bucket existence oracle: only the key of dW1 exists. -/
def exW : String → Except BErr Bool := fun k =>
  if k = "bazel_cas/aa-1" then .ok true else .ok false

/-- An existence oracle agreeing with exW on the keys of dW1 and dW2 and
failing everywhere else. -/
def exW2 : String → Except BErr Bool := fun k =>
  if k = "bazel_cas/aa-1" then .ok true
  else if k = "bazel_cas/bb-2" then .ok false
  else .error (.native { gcode := GCode.unknown, msg := "other key" })

/-- A bucket reader oracle that succeeds on every key. -/
def nrOkW : String → Except CloudErr Bytes := fun _ => .ok [7, 8]

/-- A bucket reader oracle agreeing with nrOkW on the key of dW1 only. -/
def nrOkW2 : String → Except CloudErr Bytes := fun k =>
  if k = "bazel_cas/aa-1" then .ok [7, 8]
  else .error { gcode := GCode.unknown, msg := "other" }

/-- A bucket reader oracle that fails every open with a native NotFound. -/
def nrErrW : String → Except CloudErr Bytes := fun _ =>
  .error { gcode := GCode.notFound, msg := "no such key" }

/-- A bucket object map holding the same one-byte object under every
key. -/
def objW : ObjMap := fun _ => some [1]

/-- A digest parser that rejects an empty hash and otherwise qualifies
the wire digest with the instance name. -/
def parseW : String → PartialDigest → Except BErr Digest := fun instanceName pd =>
  if pd.hash = "" then .error (.grpc Code.invalidArgument "unknown digest hash length")
  else .ok { instanceName := instanceName, hash := pd.hash, sizeBytes := pd.sizeBytes }

/-- A digest parser that always succeeds. -/
def parseOkW : String → PartialDigest → Except BErr Digest := fun instanceName pd =>
  .ok { instanceName := instanceName, hash := pd.hash, sizeBytes := pd.sizeBytes }

/-- A Put oracle that fails on the digest with hash "cc" only. -/
def putW : Digest → Bytes → Option BErr := fun d _ =>
  if d.hash = "cc" then some (.grpc Code.internal "storage failure") else none

/-- A batch update request with one good element, one element whose
digest does not parse, and one element whose Put fails. -/
def reqBatchW : BatchUpdateBlobsRequest :=
  { instanceName := "inst"
    requests :=
      [ { digest := { hash := "aa", sizeBytes := 1 }, data := [1] }
      , { digest := { hash := "", sizeBytes := 0 }, data := [] }
      , { digest := { hash := "cc", sizeBytes := 1 }, data := [2] } ] }

/-- A FindMissing oracle reporting every queried digest as missing. -/
def fmW : List Digest → Except BErr (List Digest) := fun ds => .ok ds

/-- A FindMissingBlobs request with two wire digests. -/
def reqFindW : FindMissingBlobsRequest :=
  { instanceName := "inst"
    blobDigests := [{ hash := "aa", sizeBytes := 1 }, { hash := "bb", sizeBytes := 2 }] }

/-- A blob read oracle that always yields one byte. -/
def getW : Digest → Except BErr Bytes := fun _ => .ok [1]

/-- A blob read oracle that always fails. -/
def getBoomW : Digest → Except BErr Bytes := fun _ => .error (.grpc Code.internal "read")

/-- An unmarshal oracle on raw bytes. -/
def unW : Bytes → Except BErr Bytes := fun bs => .ok bs

/-- A digest whose declared size exceeds the sample maximum of 5. -/
def dBigW : Digest := { instanceName := "", hash := "aa", sizeBytes := 10 }

/-- A digest whose declared size is within the sample maximum of 5. -/
def dSmallW : Digest := { instanceName := "", hash := "aa", sizeBytes := 3 }

/-- A constant digest function for the PutFile fixture. -/
def hashW : Bytes → String := fun _ => "h"

/-- A Put oracle that always succeeds. -/
def putNoneW : Digest → Bytes → Option BErr := fun _ _ => none

/-- A sample blobAccess.Get failure for the GetFile evaluation. -/
def errRead : BErr := BErr.grpc Code.unknown "get failed"

/-- An empty destination directory. -/
def emptyDir : Dir := fun _ => none

/-! Helper lemmas. -/

/-- With no failing existence check, the FindMissing loop appends to its
accumulator exactly the digests whose key does not exist. -/
theorem findMissingLoop_ok (ba : CloudBlobAccess) (ex : String → Except BErr Bool)
    (l : List Digest) :
    ∀ acc : List Digest,
      (∀ d ∈ l, isErrorResult (ex (cloudGetKey ba d)) = false) →
      findMissingLoop ba ex acc l =
        (acc ++ l.filter (fun d => isOkFalse (ex (cloudGetKey ba d))), none) := by
  induction l with
  | nil => intro acc _; simp [findMissingLoop]
  | cons hd tl ih =>
      intro acc h
      have hhd : isErrorResult (ex (cloudGetKey ba hd)) = false := h hd (by simp)
      have htl : ∀ d ∈ tl, isErrorResult (ex (cloudGetKey ba d)) = false :=
        fun d hmem => h d (by simp [hmem])
      cases hres : ex (cloudGetKey ba hd) with
      | error e => rw [hres] at hhd; simp [isErrorResult] at hhd
      | ok b =>
          cases b with
          | true =>
              simp only [findMissingLoop, hres]
              rw [ih acc htl]
              simp [hres, isOkFalse]
          | false =>
              simp only [findMissingLoop, hres]
              rw [ih (acc ++ [hd]) htl]
              simp [hres, isOkFalse]

/-- With some failing existence check, the FindMissing loop aborts with
the empty list and the error of a failing digest of the input. -/
theorem findMissingLoop_err (ba : CloudBlobAccess) (ex : String → Except BErr Bool)
    (l : List Digest) :
    ∀ acc : List Digest,
      (∃ d ∈ l, isErrorResult (ex (cloudGetKey ba d)) = true) →
      ∃ e, findMissingLoop ba ex acc l = ([], some e) ∧
        ∃ d ∈ l, ex (cloudGetKey ba d) = Except.error e := by
  induction l with
  | nil => intro acc h; simp at h
  | cons hd tl ih =>
      intro acc h
      cases hres : ex (cloudGetKey ba hd) with
      | error e =>
          refine ⟨e, by simp [findMissingLoop, hres], hd, by simp, hres⟩
      | ok b =>
          obtain ⟨d0, hd0mem, hd0err⟩ := h
          have hd0tl : d0 ∈ tl := by
            rcases List.mem_cons.mp hd0mem with heq | htl
            · subst heq; rw [hres] at hd0err; simp [isErrorResult] at hd0err
            · exact htl
          cases b with
          | true =>
              obtain ⟨e, hloop, d1, hd1mem, hd1err⟩ := ih acc ⟨d0, hd0tl, hd0err⟩
              exact ⟨e, by simp [findMissingLoop, hres, hloop], d1, by simp [hd1mem], hd1err⟩
          | false =>
              obtain ⟨e, hloop, d1, hd1mem, hd1err⟩ := ih (acc ++ [hd]) ⟨d0, hd0tl, hd0err⟩
              exact ⟨e, by simp [findMissingLoop, hres, hloop], d1, by simp [hd1mem], hd1err⟩

/-- The FindMissing loop consults the existence oracle only at the keys
of its input digests. -/
theorem findMissingLoop_congr (ba : CloudBlobAccess)
    (ex ex' : String → Except BErr Bool) (l : List Digest) :
    ∀ acc : List Digest,
      (∀ d ∈ l, ex (cloudGetKey ba d) = ex' (cloudGetKey ba d)) →
      findMissingLoop ba ex acc l = findMissingLoop ba ex' acc l := by
  induction l with
  | nil => intro acc _; simp [findMissingLoop]
  | cons hd tl ih =>
      intro acc h
      have hhd : ex (cloudGetKey ba hd) = ex' (cloudGetKey ba hd) := h hd (by simp)
      have htl : ∀ d ∈ tl, ex (cloudGetKey ba d) = ex' (cloudGetKey ba d) :=
        fun d hmem => h d (by simp [hmem])
      cases hres : ex' (cloudGetKey ba hd) with
      | error e => simp only [findMissingLoop, hhd, hres]
      | ok b =>
          cases b with
          | true => simp only [findMissingLoop, hhd, hres]; exact ih acc htl
          | false => simp only [findMissingLoop, hhd, hres]; exact ih (acc ++ [hd]) htl

/-- When every wire digest parses, the parse-and-collect loop yields the
parses in order. -/
theorem collectDigests_ok (parse : String → PartialDigest → Except BErr Digest)
    (instanceName : String) (l : List PartialDigest) :
    (∀ pd ∈ l, ∃ d, parse instanceName pd = Except.ok d) →
    ∃ parsed, collectDigests parse instanceName l = Except.ok parsed ∧
      parsed.length = l.length ∧
      ∀ p ∈ parsed.zip l, parse instanceName p.2 = Except.ok p.1 := by
  induction l with
  | nil => intro _; exact ⟨[], rfl, rfl, by simp⟩
  | cons hd tl ih =>
      intro h
      obtain ⟨d, hdok⟩ := h hd (by simp)
      obtain ⟨parsed, hcoll, hlen, hzip⟩ := ih (fun pd hmem => h pd (by simp [hmem]))
      refine ⟨d :: parsed, ?_, by simp [hlen], ?_⟩
      · simp [collectDigests, hdok, hcoll]
      · intro p hp
        rw [List.zip_cons_cons] at hp
        rcases List.mem_cons.mp hp with heq | htl
        · subst heq; exact hdok
        · exact hzip p htl

/-- Every pair of the zip of a mapped list with the list itself is the
image paired with its argument. -/
theorem zip_map_self_prop {α β : Type} (f : α → β) (l : List α)
    (P : β × α → Prop) (h : ∀ a ∈ l, P (f a, a)) :
    ∀ p ∈ (l.map f).zip l, P p := by
  induction l with
  | nil => simp
  | cons hd tl ih =>
      intro p hp
      rw [List.map_cons, List.zip_cons_cons] at hp
      rcases List.mem_cons.mp hp with heq | htl
      · subst heq; exact h hd (by simp)
      · exact ih (fun a hmem => h a (by simp [hmem])) p htl

/-! Claim theorems. -/

/-- Claim C1: for every digest set, cloudBlobAccess.FindMissing returns,
when no existence check errors, exactly the subset of digests whose key
the bucket reports as not existing; if any existence check fails it
returns the empty set together with that check's error. -/
theorem cloudFindMissing_spec (ba : CloudBlobAccess)
    (ex : String → Except BErr Bool) (S : List Digest) :
    ((∀ d ∈ S, isErrorResult (ex (cloudGetKey ba d)) = false) →
      cloudFindMissing ba ex S =
        (S.filter (fun d => isOkFalse (ex (cloudGetKey ba d))), none)) ∧
    ((∃ d ∈ S, isErrorResult (ex (cloudGetKey ba d)) = true) →
      ∃ e, cloudFindMissing ba ex S = ([], some e) ∧
        ∃ d ∈ S, ex (cloudGetKey ba d) = Except.error e) := by
  constructor
  · intro h
    have := findMissingLoop_ok ba ex S [] h
    simpa [cloudFindMissing] using this
  · intro h
    have := findMissingLoop_err ba ex S [] h
    simpa [cloudFindMissing] using this

/-- Claim C1 witness: under baW and exW only the key of dW1 exists, so
dW2 alone is reported missing. -/
theorem cloudFindMissing_witness :
    cloudFindMissing baW exW [dW1, dW2] = ([dW2], none) := by
  have h := (cloudFindMissing_spec baW exW [dW1, dW2]).1 (by decide)
  rw [h]; decide

/-- Claim C2: cloudBlobAccess.Put cancels the writer context before
closing on a copy failure, so the partial object is not committed, and
closes before cancelling on success, so the complete object is
committed; the committed object exists exactly when NewWriter and the
copy both succeed, and then holds the buffer's full bytes. -/
theorem cloudPut_commit_spec (ba : CloudBlobAccess) (d : Digest) (data : Bytes)
    (newWriterErr : Option BErr) (copyFail : Option (Nat × BErr)) :
    (runWriter (cloudPut ba d data newWriterErr copyFail).2.1).committedObject =
      (if newWriterErr = none ∧ copyFail = none then some data else none) ∧
    (cloudPut ba d data newWriterErr copyFail).2.2 =
      (match newWriterErr, copyFail with
       | some e, _ => some e
       | none, some (_, e) => some e
       | none, none => none) := by
  cases newWriterErr with
  | some e => simp [cloudPut, runWriter, writerStep]
  | none =>
      cases copyFail with
      | some ne =>
          cases ne with
          | mk n e => simp [cloudPut, runWriter, writerStep]
      | none => simp [cloudPut, runWriter, writerStep]

/-- Claim C3: BatchUpdateBlobs returns a non-error response with exactly
one response per request element, each carrying that element's wire
digest and the converted status of that element's parse-and-Put
outcome; no element failure fails the RPC. -/
theorem batchUpdateBlobs_spec (parse : String → PartialDigest → Except BErr Digest)
    (put : Digest → Bytes → Option BErr) (req : BatchUpdateBlobsRequest) :
    ∃ resp, batchUpdateBlobs parse put req = Except.ok resp ∧
      resp.responses.length = req.requests.length ∧
      ∀ p ∈ resp.responses.zip req.requests,
        p.1.digest = p.2.digest ∧
        p.1.status = statusConvert (elementOutcome parse put req.instanceName p.2) := by
  refine ⟨_, rfl, by simp [batchUpdateBlobs], ?_⟩
  exact zip_map_self_prop (batchUpdateOne parse put req.instanceName) req.requests
    (fun p => p.1.digest = p.2.digest ∧
      p.1.status = statusConvert (elementOutcome parse put req.instanceName p.2))
    (fun a _ => ⟨rfl, rfl⟩)

/-- Claim C3 witness: a batch with a good element, an unparsable element
and a failing Put still yields a non-error response with per-element
statuses. -/
theorem batchUpdateBlobs_witness :
    ∃ resp, batchUpdateBlobs parseW putW reqBatchW = Except.ok resp ∧
      resp.responses.length = reqBatchW.requests.length ∧
      ∀ p ∈ resp.responses.zip reqBatchW.requests,
        p.1.digest = p.2.digest ∧
        p.1.status = statusConvert (elementOutcome parseW putW reqBatchW.instanceName p.2) :=
  batchUpdateBlobs_spec parseW putW reqBatchW

/-- Claim C4: cloudBlobAccess.Get never returns an error directly; a
failing NewReader yields a Buffer embedding the error, a native NotFound
error becoming a gRPC NotFound status with the same message and every
other error passing through unchanged. -/
theorem cloudGet_error_spec (ba : CloudBlobAccess)
    (newReader : String → Except CloudErr Bytes) (d : Digest) (e : CloudErr)
    (h : newReader (cloudGetKey ba d) = Except.error e) :
    cloudGet ba newReader d =
      Buffer.fromError
        (if e.gcode = GCode.notFound then BErr.grpc Code.notFound e.msg
         else BErr.native e) ∧
    (e.gcode = GCode.notFound →
      cloudGet ba newReader d = Buffer.fromError (BErr.grpc Code.notFound e.msg)) ∧
    (e.gcode ≠ GCode.notFound →
      cloudGet ba newReader d = Buffer.fromError (BErr.native e)) := by
  have hmain : cloudGet ba newReader d =
      Buffer.fromError
        (if e.gcode = GCode.notFound then BErr.grpc Code.notFound e.msg
         else BErr.native e) := by
    simp only [cloudGet, h]
  refine ⟨hmain, fun hnf => ?_, fun hnf => ?_⟩
  · rw [hmain, if_pos hnf]
  · rw [hmain, if_neg hnf]

/-- Claim C4 witness: a native NotFound open failure under baW becomes a
buffer embedding a gRPC NotFound status with the same message. -/
theorem cloudGet_error_witness :
    cloudGet baW nrErrW dW1 = Buffer.fromError (BErr.grpc Code.notFound "no such key") :=
  (cloudGet_error_spec baW nrErrW dW1
    { gcode := GCode.notFound, msg := "no such key" } rfl).2.1 rfl

/-- Claim C5: on a successful reader open, the Buffer returned by
cloudBlobAccess.Get carries a Repair hook that deletes exactly the key
of the requested digest from the bucket's objects, leaving every other
key untouched. -/
theorem cloudGet_repair_spec (ba : CloudBlobAccess)
    (newReader : String → Except CloudErr Bytes) (d : Digest) (contents : Bytes)
    (h : newReader (cloudGetKey ba d) = Except.ok contents) :
    cloudGet ba newReader d =
      Buffer.fromReader d contents
        (fun objects => bucketDelete objects (cloudGetKey ba d)) ∧
    ∀ (objects : ObjMap) (k : String),
      Buffer.repairOf (cloudGet ba newReader d) objects k =
        (if k = cloudGetKey ba d then none else objects k) := by
  have hmain : cloudGet ba newReader d =
      Buffer.fromReader d contents
        (fun objects => bucketDelete objects (cloudGetKey ba d)) := by
    simp only [cloudGet, h]
  refine ⟨hmain, fun objects k => ?_⟩
  rw [hmain]; rfl

/-- Claim C5 witness: under baW the repair hook of a successfully opened
buffer deletes the key of dW1 and leaves an unrelated key unchanged. -/
theorem cloudGet_repair_witness :
    Buffer.repairOf (cloudGet baW nrOkW dW1) objW (cloudGetKey baW dW1) = none ∧
    Buffer.repairOf (cloudGet baW nrOkW dW1) objW "unrelated" = some [1] := by
  have h := (cloudGet_repair_spec baW nrOkW dW1 [7, 8] rfl).2
  constructor
  · rw [h objW (cloudGetKey baW dW1), if_pos rfl]
  · rw [h objW "unrelated"]; decide

/-- Claim C6: when every wire digest of a FindMissingBlobs request
parses, the server collects the parses of all request digests into one
set, delegates to a single BlobAccess.FindMissing call, and answers with
exactly the partial-digest projections of the digests FindMissing
returned. -/
theorem findMissingBlobs_spec (parse : String → PartialDigest → Except BErr Digest)
    (fm : List Digest → Except BErr (List Digest)) (req : FindMissingBlobsRequest)
    (h : ∀ pd ∈ req.blobDigests, ∃ d, parse req.instanceName pd = Except.ok d) :
    ∃ parsed : List Digest,
      collectDigests parse req.instanceName req.blobDigests = Except.ok parsed ∧
      parsed.length = req.blobDigests.length ∧
      (∀ p ∈ parsed.zip req.blobDigests,
        parse req.instanceName p.2 = Except.ok p.1) ∧
      findMissingBlobs parse fm req =
        (match fm parsed with
         | Except.error e => Except.error e
         | Except.ok outDigests =>
             Except.ok { missingBlobDigests := outDigests.map Digest.getPartialDigest }) := by
  obtain ⟨parsed, hcoll, hlen, hzip⟩ :=
    collectDigests_ok parse req.instanceName req.blobDigests h
  exact ⟨parsed, hcoll, hlen, hzip, by simp [findMissingBlobs, hcoll]⟩

/-- Claim C6 witness: with an always-succeeding parser and a FindMissing
oracle returning its whole input, the response projects the parses back
to wire digests. -/
theorem findMissingBlobs_witness :
    ∃ parsed : List Digest,
      collectDigests parseOkW reqFindW.instanceName reqFindW.blobDigests =
        Except.ok parsed ∧
      parsed.length = reqFindW.blobDigests.length ∧
      (∀ p ∈ parsed.zip reqFindW.blobDigests,
        parseOkW reqFindW.instanceName p.2 = Except.ok p.1) ∧
      findMissingBlobs parseOkW fmW reqFindW =
        (match fmW parsed with
         | Except.error e => Except.error e
         | Except.ok outDigests =>
             Except.ok { missingBlobDigests := outDigests.map Digest.getPartialDigest }) :=
  findMissingBlobs_spec parseOkW fmW reqFindW (fun _pd _ => ⟨_, rfl⟩)

/-- Claim C7: getMessage refuses a digest whose declared size exceeds
the configured maximum with InvalidArgument, without consulting the
underlying BlobAccess at all; a digest within the bound has its blob
fully read and handed to the decoder. -/
theorem getMessage_spec {M : Type} (maximumMessageSizeBytes : Nat)
    (get get2 : Digest → Except BErr Bytes) (unmarshal : Bytes → Except BErr M)
    (d : Digest) :
    (d.sizeBytes > maximumMessageSizeBytes →
      getMessage maximumMessageSizeBytes get unmarshal d =
        Except.error (BErr.grpc Code.invalidArgument "Refusing to unmarshal message") ∧
      getMessage maximumMessageSizeBytes get unmarshal d =
        getMessage maximumMessageSizeBytes get2 unmarshal d) ∧
    (d.sizeBytes ≤ maximumMessageSizeBytes →
      getMessage maximumMessageSizeBytes get unmarshal d =
        (match get d with
         | Except.error e => Except.error e
         | Except.ok data => unmarshal data)) := by
  constructor
  · intro hgt
    constructor <;> simp [getMessage, hgt]
  · intro hle
    have hnot : ¬ d.sizeBytes > maximumMessageSizeBytes := not_lt.mpr hle
    simp [getMessage, hnot]

/-- Claim C7 witness: with a maximum of 5 a digest of declared size 10
is refused identically for two different read oracles, and a digest of
declared size 3 is read and decoded. -/
theorem getMessage_witness :
    (getMessage 5 getW unW dBigW =
        Except.error (BErr.grpc Code.invalidArgument "Refusing to unmarshal message") ∧
      getMessage 5 getW unW dBigW = getMessage 5 getBoomW unW dBigW) ∧
    getMessage 5 getW unW dSmallW = Except.ok [1] := by
  constructor
  · exact (getMessage_spec 5 getW getBoomW unW dBigW).1 (by decide)
  · have h := (getMessage_spec 5 getW getBoomW unW dSmallW).2 (by decide)
    rw [h]; rfl

/-- Claim C8: the key under which the cloud backend stores, reads,
checks and repairs a blob is the deployer-supplied key prefix followed
by the storage type's digest key, and Get, Put, FindMissing and the
Repair deletion all use that same key. -/
theorem cloudKey_spec (ba : CloudBlobAccess) (d : Digest) :
    cloudGetKey ba d = ba.keyPrefix ++ ba.storageType.getDigestKey d ∧
    (∀ nr nr' : String → Except CloudErr Bytes,
      nr (cloudGetKey ba d) = nr' (cloudGetKey ba d) →
      cloudGet ba nr d = cloudGet ba nr' d) ∧
    (∀ (data : Bytes) (newWriterErr : Option BErr) (copyFail : Option (Nat × BErr)),
      (cloudPut ba d data newWriterErr copyFail).1 = cloudGetKey ba d) ∧
    (∀ (ex ex' : String → Except BErr Bool) (S : List Digest),
      (∀ d2 ∈ S, ex (cloudGetKey ba d2) = ex' (cloudGetKey ba d2)) →
      cloudFindMissing ba ex S = cloudFindMissing ba ex' S) ∧
    (∀ (nr : String → Except CloudErr Bytes) (contents : Bytes),
      nr (cloudGetKey ba d) = Except.ok contents →
      ∀ objects : ObjMap,
        Buffer.repairOf (cloudGet ba nr d) objects (cloudGetKey ba d) = none) := by
  refine ⟨rfl, ?_, ?_, ?_, ?_⟩
  · intro nr nr' h
    simp only [cloudGet, h]
  · intro data newWriterErr copyFail
    cases newWriterErr with
    | some e => rfl
    | none =>
        cases copyFail with
        | some ne => cases ne with | mk n e => rfl
        | none => rfl
  · intro ex ex' S h
    exact findMissingLoop_congr ba ex ex' S [] h
  · intro nr contents hok objects
    simp [cloudGet, hok, Buffer.repairOf, bucketDelete]

/-- Claim C8 witness: under baW and dW1 the key is "bazel_cas/aa-1";
Get and FindMissing do not distinguish oracles that agree on the
relevant keys, Put writes that key and the repair hook deletes it. -/
theorem cloudKey_witness :
    cloudGetKey baW dW1 = "bazel_cas/aa-1" ∧
    cloudGet baW nrOkW dW1 = cloudGet baW nrOkW2 dW1 ∧
    (cloudPut baW dW1 [1] none none).1 = "bazel_cas/aa-1" ∧
    cloudFindMissing baW exW [dW1, dW2] = cloudFindMissing baW exW2 [dW1, dW2] ∧
    Buffer.repairOf (cloudGet baW nrOkW dW1) objW (cloudGetKey baW dW1) = none := by
  have h := cloudKey_spec baW dW1
  refine ⟨?_, ?_, ?_, ?_, ?_⟩
  · rw [h.1]; decide
  · exact h.2.1 nrOkW nrOkW2 (by decide)
  · rw [h.2.2.1 [1] none none, h.1]; decide
  · exact h.2.2.2.1 exW exW2 [dW1, dW2] (by decide)
  · exact h.2.2.2.2 nrOkW [7, 8] rfl objW

/-- Claim C9: PutFile hands the backing BlobAccess.Put exactly the bytes
the file held when the digest was computed; bytes appended to the file
between the digest pass and the upload are excluded by the section
reader, so the uploaded length equals the digest's declared size. -/
theorem putFile_spec (hashFn : Bytes → String) (instanceName : String)
    (fileAtDigestTime appended : Bytes) (put : Digest → Bytes → Option BErr)
    (hsize : fileAtDigestTime.length ≤ maxInt64) :
    putFile hashFn instanceName none fileAtDigestTime appended put =
      (match put { instanceName := instanceName, hash := hashFn fileAtDigestTime,
                   sizeBytes := fileAtDigestTime.length } fileAtDigestTime with
       | some e => Except.error e
       | none =>
           Except.ok
             ({ instanceName := instanceName, hash := hashFn fileAtDigestTime,
                sizeBytes := fileAtDigestTime.length }, fileAtDigestTime)) := by
  have hhashed : sectionRead fileAtDigestTime 0 maxInt64 = fileAtDigestTime := by
    simp [sectionRead, List.take_of_length_le hsize]
  have hupload :
      sectionRead (fileAtDigestTime ++ appended) 0 fileAtDigestTime.length =
        fileAtDigestTime := by
    simp [sectionRead, List.take_left]
  simp only [putFile, hhashed, hupload]

/-- Claim C9 witness: a file holding two bytes with one byte appended
after the digest pass uploads exactly the original two bytes, with the
digest's declared size equal to 2. -/
theorem putFile_witness :
    putFile hashW "i" none [1, 2] [3] putNoneW =
      Except.ok ({ instanceName := "i", hash := "h", sizeBytes := 2 }, [1, 2]) := by
  have h := putFile_spec hashW "i" [1, 2] [3] putNoneW (by decide)
  rw [h]; rfl

/-- Claim C10 (evaluation at the failing input): GetFile with a failing
blobAccess.Get leaves the freshly created empty read-only file in the
destination directory while returning the error, although the code's
own comment promises that no traces are left behind upon failure; only
a failure of the copy itself removes the created file. -/
theorem getFile_get_error_leaves_file :
    ((getFile emptyDir "out" false (Except.error errRead) none).1 "out" =
        some { mode := 0o444, content := [] } ∧
      (getFile emptyDir "out" false (Except.error errRead) none).2 = some errRead) ∧
    ((getFile emptyDir "out" false (Except.ok [7]) (some (0, errRead))).1 "out" =
        none ∧
      (getFile emptyDir "out" false (Except.ok [7]) (some (0, errRead))).2 =
        some errRead) := by
  refine ⟨⟨?_, rfl⟩, ⟨?_, rfl⟩⟩ <;>
    simp [getFile, emptyDir, dirInsert, dirRemove]

end BBStorage
